import Mathlib

/-!
Shallow embedding of the cluster-iq agent core: the tag-derived cluster
identity resolver (`internal/inventory/tag.go`) and the account-to-executor
registry of the agent service (`cmd/agent` main file).

Go `regexp` (RE2 with leftmost-first / Perl-style match selection) is
embedded for the three fixed patterns of `tag.go` by working out, on a
character list, exactly when each pattern matches and what its first
capture group is.  All three patterns share the shape
`kubernetes.io/cluster/ … end-of-string`, where each `.` of the pattern
matches any character except a newline.
-/

set_option autoImplicit false

namespace ClusterIQ

/-- Tag models generic tags as a Key-Value object, mirroring the Go struct
`Tag` with fields `Key`, `Value` and `InstanceID`. -/
structure Tag where
  Key : String
  Value : String
  InstanceID : String
deriving DecidableEq, Repr

/-- NewTag returns a new generic tag struct (source constructor `NewTag`). -/
def NewTag (key : String) (value : String) (instanceID : String) : Tag :=
  ⟨key, value, instanceID⟩

/-- The regular expression string for extracting the cluster name
(`clusterNameRegexp` constant in `tag.go`). -/
def clusterNameRegexp : String := "kubernetes.io/cluster/(.*?)-.{5}$"

/-- The regular expression string for extracting the infrastructure ID
(`infraIDRegexp` constant in `tag.go`). -/
def infraIDRegexp : String := "kubernetes.io/cluster/.*-(.{5}?)$"

/-- The regular expression string declared for cluster IDs
(`clusterIDRegexp` constant in `tag.go`).  Note that this constant is
never used by the Go source: `parseClusterID` compiles `clusterNameRegexp`
instead. -/
def clusterIDRegexp : String := "kubernetes.io/cluster/(.*)$"

/-- Sentinel for an unknown cluster name (`unknownClusterNameCode`). -/
def unknownClusterNameCode : String := "UNKNOWN-CLUSTER"

/-- Sentinel for an unknown cluster ID (`unknownClusterIDCode`). -/
def unknownClusterIDCode : String := "UNKNOWN-CLUSTER"

/-- Modelled from the spec: `ClusterTagKey`, the fixed cluster tag marker
substring, is referenced by `tag.go` but its defining Go file is not part
of the sources at hand.  The spec describes marker-bearing keys as having
the shape `<marker>/<cluster-name>-<5-char-suffix>` with example key
`kubernetes.io/cluster/mycluster-ab12c`, so the marker is the fixed
substring `kubernetes.io/cluster`. -/
def ClusterTagKey : String := "kubernetes.io/cluster"

/-- Embedding of Go `strings.Contains sub s`: `sub` occurs as a contiguous
substring of `s` (at any position, including the empty substring). -/
def containsSub (s sub : String) : Bool :=
  (List.range (s.toList.length + 1)).any fun p =>
    sub.toList.isPrefixOf (s.toList.drop p)

/-- In Go regexps, an unescaped `.` matches any character except `\n`. -/
def anyCh (c : Char) : Bool := c ≠ '\n'

/-- The literal part `kubernetes.io/cluster/` common to the three patterns,
as a symbol list: `none` is a `.` wildcard, `some c` a literal character. -/
def markerPatSyms : List (Option Char) :=
  "kubernetes.io/cluster/".toList.map fun c => if c = '.' then none else some c

/-- One pattern symbol matching one subject character. -/
def matchSym : Option Char → Char → Bool
  | none, c => anyCh c
  | some a, c => a == c

/-- A symbol list matching a prefix of a character list. -/
def matchPatAt : List (Option Char) → List Char → Bool
  | [], _ => true
  | _ :: _, [] => false
  | p :: ps, c :: cs => matchSym p c && matchPatAt ps cs

/-- Whether a full match of `clusterNameRegexp` (equivalently of
`infraIDRegexp`) starts at position `p` of `s`.  Both patterns consist of
the 22-symbol part `kubernetes.io/cluster/`, a run of non-newline
characters, a literal `-`, exactly five non-newline characters, and the
end-of-string anchor; since the five-character block is anchored at the
end, the `-` is forced to sit at position `s.length - 6` and the middle
run to span positions `p + 22` up to that `-`, for either pattern and for
either greediness, so the two patterns match at exactly the same
positions and differ only in their capture group. -/
def clusterKeyFullMatchAt (s : List Char) (p : Nat) : Bool :=
  matchPatAt markerPatSyms (s.drop p)
  && decide (p + 28 ≤ s.length)
  && ((s.drop (s.length - 6)).headD ' ' == '-')
  && ((s.drop (p + 22)).take (s.length - 6 - (p + 22))).all anyCh
  && (s.drop (s.length - 5)).all anyCh

/-- The leftmost start position of a full match of `clusterNameRegexp`
(equivalently of `infraIDRegexp`) in `s`, as Go's
`FindAllStringSubmatch(s, 1)` selects it, or `none` when the pattern does
not match. -/
def findClusterMatch (s : List Char) : Option Nat :=
  (List.range (s.length + 1)).find? (clusterKeyFullMatchAt s)

/-- parseClusterName parses a Tag key to obtain the cluster name: the
capture group `(.*?)` of `clusterNameRegexp`, which spans positions
`p + 22` up to the forced `-` at `s.length - 6`; on no match it returns
the `unknownClusterNameCode` sentinel. -/
def parseClusterName (key : String) : String :=
  match findClusterMatch key.toList with
  | none => unknownClusterNameCode
  | some p =>
    let s := key.toList
    String.mk ((s.drop (p + 22)).take (s.length - 6 - (p + 22)))

/-- parseClusterID parses a Tag key to obtain the cluster ID.  The Go
source compiles `clusterNameRegexp` here (not `clusterIDRegexp`), so the
extraction is identical to `parseClusterName` apart from returning the
`unknownClusterIDCode` sentinel on no match. -/
def parseClusterID (key : String) : String :=
  match findClusterMatch key.toList with
  | none => unknownClusterIDCode
  | some p =>
    let s := key.toList
    String.mk ((s.drop (p + 22)).take (s.length - 6 - (p + 22)))

/-- parseInfraID parses a Tag key to obtain the InfraID: the capture group
`(.{5}?)` of `infraIDRegexp`, the last five characters of the key; on no
match it returns the empty string. -/
def parseInfraID (key : String) : String :=
  match findClusterMatch key.toList with
  | none => ""
  | some _ =>
    let s := key.toList
    String.mk (s.drop (s.length - 5))

/-- LookForTagByKey looks for a Tag based on its Key.  The Go source
declares `var resultTag Tag` and returns `&resultTag` on the first key
match, so the returned pointer refers to the zero-valued tag
`⟨"", "", ""⟩` rather than to the matching tag; `nil` (here `none`) is
returned when no key matches. -/
def LookForTagByKey (key : String) : List Tag → Option Tag
  | [] => none
  | tag :: rest =>
    if tag.Key == key then some ⟨"", "", ""⟩ else LookForTagByKey key rest

/-- GetOwnerFromTags looks for a tag with the key `Owner`; the Go source
returns `result.Key` of the tag produced by `LookForTagByKey` when that
is non-nil, and the empty string otherwise. -/
def GetOwnerFromTags (tags : List Tag) : String :=
  match LookForTagByKey "Owner" tags with
  | some result => result.Key
  | none => ""

/-- GetInstanceNameFromTags mirrors `GetOwnerFromTags` with the key
`Name`, likewise returning `result.Key` of the found tag. -/
def GetInstanceNameFromTags (tags : List Tag) : String :=
  match LookForTagByKey "Name" tags with
  | some result => result.Key
  | none => ""

/-- GetClusterIDFromTags scans the tags in order, applies `parseClusterID`
to the first key containing `ClusterTagKey`, and returns
`unknownClusterNameCode` when no key contains the marker. -/
def GetClusterIDFromTags : List Tag → String
  | [] => unknownClusterNameCode
  | tag :: rest =>
    if containsSub tag.Key ClusterTagKey then parseClusterID tag.Key
    else GetClusterIDFromTags rest

/-- GetClusterNameFromTags scans the tags in order, applies
`parseClusterName` to the first key containing `ClusterTagKey`, and
returns `unknownClusterNameCode` when no key contains the marker. -/
def GetClusterNameFromTags : List Tag → String
  | [] => unknownClusterNameCode
  | tag :: rest =>
    if containsSub tag.Key ClusterTagKey then parseClusterName tag.Key
    else GetClusterNameFromTags rest

/-- GetInfraIDFromTags scans the tags in order, applies `parseInfraID` to
the first key containing `ClusterTagKey`, and — like the other two
functions — returns `unknownClusterNameCode` when no key contains the
marker. -/
def GetInfraIDFromTags : List Tag → String
  | [] => unknownClusterNameCode
  | tag :: rest =>
    if containsSub tag.Key ClusterTagKey then parseInfraID tag.Key
    else GetInfraIDFromTags rest

/-! ## Agent service: executor registry and provisioning -/

/-- Cloud provider kinds dispatched on by `createExecutors`
(`inventory.AWSProvider`, `inventory.GCPProvider`,
`inventory.AzureProvider`, plus the unmatched remainder of the Go
`switch`, which falls through silently). -/
inductive Provider where
  | AWS
  | GCP
  | Azure
  | Other
deriving DecidableEq, Repr

/-- Modelled from the spec: `credentials.AccountConfig`, one configured
cloud account (`provider`, `name`, `user`, `key`); the credentials
package is not among the sources at hand. -/
structure AccountConfig where
  Provider : Provider
  Name : String
  User : String
  Key : String
deriving DecidableEq, Repr

/-- Modelled from the spec: a `cexec.CloudExecutor`, the polymorphic unit
bound to one account; the cloud_executors package is not among the
sources at hand.  Per the spec it reports a stable account name
(`GetAccountName`) and exclusively owns the account's credential
material, which is what distinguishes executors built from different
descriptors. -/
structure CloudExecutor where
  accountName : String
  user : String
  key : String
deriving DecidableEq, Repr

/-- The executor's stable account name, used as the registry key. -/
def GetAccountName (e : CloudExecutor) : String := e.accountName

/-- Modelled from the spec: `cexec.NewAWSExecutor` constructs an
AWSExecutor from the account identity
`inventory.NewAccount("", name, provider, user, key)`. -/
def NewAWSExecutor (acc : AccountConfig) : CloudExecutor :=
  ⟨acc.Name, acc.User, acc.Key⟩

/-- The `executors` map of the `AgentService`, embedded as an association
list with unique keys: `insertExec` below replaces in place on an
existing key, as assignment to a Go map key does. -/
abbrev Registry := List (String × CloudExecutor)

/-- Insert-or-replace for the registry, the embedding of the Go map
assignment `a.executors[k] = exec`. -/
def insertExec : Registry → String → CloudExecutor → Registry
  | [], k, v => [(k, v)]
  | (k', v') :: rest, k, v =>
    if k' = k then (k, v) :: rest else (k', v') :: insertExec rest k v

/-- Lookup in the registry, the embedding of reading `a.executors[k]`. -/
def lookupExec : Registry → String → Option CloudExecutor
  | [], _ => none
  | (k', v) :: rest, k => if k' = k then some v else lookupExec rest k

/-- AddExecutor on the agent service: a `nil` executor (`none`) yields the
error `Cannot add a nil Executor` and leaves the map untouched; otherwise
the executor is stored under its `GetAccountName` key.  The Go method
mutates the receiver and returns an error, embedded here as the pair of
the new registry and an optional error message. -/
def AddExecutor (reg : Registry) (exec : Option CloudExecutor) :
    Registry × Option String :=
  match exec with
  | none => (reg, some "Cannot add a nil Executor")
  | some e => (insertExec reg (GetAccountName e) e, none)

/-- The per-account loop of `createExecutors`: AWS accounts are turned
into an executor by the constructor `newAWS` (a parameter standing for
`cexec.NewAWSExecutor`, whose result may be `nil`) and registered through
`AddExecutor`, failing fast on its error; GCP and Azure accounts only log
a warning and are skipped; unmatched providers fall through silently. -/
def createExecutorsLoop (newAWS : AccountConfig → Option CloudExecutor) :
    List AccountConfig → Registry → Registry × Option String
  | [], reg => (reg, none)
  | acc :: rest, reg =>
    match acc.Provider with
    | Provider.AWS =>
      match AddExecutor reg (newAWS acc) with
      | (reg2, none) => createExecutorsLoop newAWS rest reg2
      | (reg2, some e) => (reg2, some e)
    | Provider.GCP => createExecutorsLoop newAWS rest reg
    | Provider.Azure => createExecutorsLoop newAWS rest reg
    | Provider.Other => createExecutorsLoop newAWS rest reg

/-- createExecutors: the account list is read from the credentials file
(`readCloudProviderAccounts`, embedded as the `readResult` parameter
since the credentials package is external); a read error is returned
unchanged with no account processed, otherwise the per-account loop
runs on the current registry. -/
def createExecutors (newAWS : AccountConfig → Option CloudExecutor)
    (readResult : Except String (List AccountConfig)) (reg : Registry) :
    Registry × Option String :=
  match readResult with
  | Except.error e => (reg, some e)
  | Except.ok accounts => createExecutorsLoop newAWS accounts reg

/-- The total AWS constructor used for concrete runs: every descriptor
yields a (non-nil) executor, as `cexec.NewAWSExecutor` does. -/
def mkAWS : AccountConfig → Option CloudExecutor :=
  fun acc => some (NewAWSExecutor acc)

/-! ## Helper lemmas -/

/-- The tag scanner for cluster names returns the parse of the first
marker-containing key, phrased through `List.find?`. -/
theorem getClusterNameFromTags_eq_parse (tags : List Tag) (t : Tag)
    (hfind : tags.find? (fun u => containsSub u.Key ClusterTagKey) = some t) :
    GetClusterNameFromTags tags = parseClusterName t.Key := by
  induction tags with
  | nil => simp at hfind
  | cons u rest ih =>
    cases h : containsSub u.Key ClusterTagKey with
    | true =>
      simp only [List.find?_cons, h, Option.some.injEq] at hfind
      subst hfind
      simp [GetClusterNameFromTags, h]
    | false =>
      simp only [List.find?_cons, h] at hfind
      simp [GetClusterNameFromTags, h, ih hfind]

/-- The tag scanner for cluster IDs returns the parse of the first
marker-containing key, phrased through `List.find?`. -/
theorem getClusterIDFromTags_eq_parse (tags : List Tag) (t : Tag)
    (hfind : tags.find? (fun u => containsSub u.Key ClusterTagKey) = some t) :
    GetClusterIDFromTags tags = parseClusterID t.Key := by
  induction tags with
  | nil => simp at hfind
  | cons u rest ih =>
    cases h : containsSub u.Key ClusterTagKey with
    | true =>
      simp only [List.find?_cons, h, Option.some.injEq] at hfind
      subst hfind
      simp [GetClusterIDFromTags, h]
    | false =>
      simp only [List.find?_cons, h] at hfind
      simp [GetClusterIDFromTags, h, ih hfind]

/-- The tag scanner for infrastructure IDs returns the parse of the first
marker-containing key, phrased through `List.find?`. -/
theorem getInfraIDFromTags_eq_parse (tags : List Tag) (t : Tag)
    (hfind : tags.find? (fun u => containsSub u.Key ClusterTagKey) = some t) :
    GetInfraIDFromTags tags = parseInfraID t.Key := by
  induction tags with
  | nil => simp at hfind
  | cons u rest ih =>
    cases h : containsSub u.Key ClusterTagKey with
    | true =>
      simp only [List.find?_cons, h, Option.some.injEq] at hfind
      subst hfind
      simp [GetInfraIDFromTags, h]
    | false =>
      simp only [List.find?_cons, h] at hfind
      simp [GetInfraIDFromTags, h, ih hfind]

/-- Lookup after insert-or-replace: the inserted key maps to the new
value and every other key is untouched. -/
theorem lookupExec_insertExec (reg : Registry) (k : String) (v : CloudExecutor)
    (k' : String) :
    lookupExec (insertExec reg k v) k' =
      if k' = k then some v else lookupExec reg k' := by
  induction reg with
  | nil =>
    simp only [insertExec, lookupExec]
    by_cases h : k = k'
    · simp [h]
    · simp [h, Ne.symm h]
  | cons p rest ih =>
    obtain ⟨a, b⟩ := p
    by_cases hak : a = k
    · subst hak
      by_cases h : a = k'
      · simp [insertExec, lookupExec, h]
      · simp [insertExec, lookupExec, h, Ne.symm h]
    · simp only [insertExec, if_neg hak, lookupExec]
      by_cases h : a = k'
      · subst h
        rw [if_pos rfl, if_neg hak, if_pos rfl]
      · rw [if_neg h, ih, if_neg h]

/-- Running the provisioning loop on an appended list first runs the
first part; the second part runs only when the first part succeeded. -/
theorem createExecutorsLoop_append (newAWS : AccountConfig → Option CloudExecutor)
    (l1 l2 : List AccountConfig) (reg : Registry) :
    createExecutorsLoop newAWS (l1 ++ l2) reg =
      match createExecutorsLoop newAWS l1 reg with
      | (r, none) => createExecutorsLoop newAWS l2 r
      | (r, some e) => (r, some e) := by
  induction l1 generalizing reg with
  | nil => rfl
  | cons acc rest ih =>
    simp only [List.cons_append, createExecutorsLoop]
    cases acc.Provider with
    | AWS =>
      cases hA : AddExecutor reg (newAWS acc) with
      | mk reg2 err => cases err <;> simp [ih]
    | GCP => exact ih reg
    | Azure => exact ih reg
    | Other => exact ih reg

/-! ## Claim theorems -/

/-- C1: at the failing input — a tag whose key is
`kubernetes.io/cluster/mycluster-ab12c` — `GetClusterIDFromTags` returns
the cluster name `mycluster`, not the trailing five-character suffix
`ab12c` that the claim requires: `parseClusterID` compiles
`clusterNameRegexp`, the very pattern of the cluster-name extraction,
while the distinct `clusterIDRegexp` constant is left unused. -/
theorem clusterID_at_failing_input_is_cluster_name :
    GetClusterIDFromTags
        [⟨"kubernetes.io/cluster/mycluster-ab12c", "", ""⟩] = "mycluster" ∧
      "mycluster" ≠ "ab12c" := by
  decide

/-- C2: at the failing inputs — a tag list holding exactly the tag
`⟨"Owner", "alice", "i-1"⟩`, and one holding `⟨"Name", "web", "i-1"⟩` —
`GetOwnerFromTags` and `GetInstanceNameFromTags` return `""`, not the
values `alice` and `web` the claim requires: `LookForTagByKey` returns
the zero-valued tag on a key match, and both getters then read its `Key`
field. -/
theorem owner_and_name_at_failing_input_empty :
    GetOwnerFromTags [⟨"Owner", "alice", "i-1"⟩] = "" ∧
      GetInstanceNameFromTags [⟨"Name", "web", "i-1"⟩] = "" := by
  decide

/-- C3 counterexample: the tag list `[⟨"Owner", "alice", "i-1"⟩]` has no
key containing the marker, yet `GetInfraIDFromTags` does not return the
empty string the claim requires: its loop falls through to
`unknownClusterNameCode`. -/
theorem infraID_no_marker_not_empty :
    containsSub "Owner" ClusterTagKey = false ∧
      GetInfraIDFromTags [⟨"Owner", "alice", "i-1"⟩] ≠ "" := by
  decide

/-- C3 (amended): for every tag list in which no key contains the cluster
tag marker, `GetClusterNameFromTags`, `GetClusterIDFromTags` and also
`GetInfraIDFromTags` all return the sentinel `UNKNOWN-CLUSTER`; the
infra-ID extractor returns the empty string only when a marker-bearing
key exists but fails its pattern, never on a marker-free tag list. -/
theorem no_marker_all_sentinel (tags : List Tag)
    (h : ∀ t ∈ tags, containsSub t.Key ClusterTagKey = false) :
    GetClusterNameFromTags tags = "UNKNOWN-CLUSTER" ∧
      GetClusterIDFromTags tags = "UNKNOWN-CLUSTER" ∧
      GetInfraIDFromTags tags = "UNKNOWN-CLUSTER" := by
  induction tags with
  | nil => exact ⟨rfl, rfl, rfl⟩
  | cons t rest ih =>
    have ht := h t (List.mem_cons_self t rest)
    obtain ⟨h1, h2, h3⟩ := ih fun u hu => h u (List.mem_cons_of_mem t hu)
    simp [GetClusterNameFromTags, GetClusterIDFromTags, GetInfraIDFromTags,
      ht, h1, h2, h3]

/-- C3 (amended) witness at the concrete marker-free list
`[⟨"Owner", "alice", "i-1"⟩]`. -/
theorem no_marker_all_sentinel_witness :
    GetClusterNameFromTags [⟨"Owner", "alice", "i-1"⟩] = "UNKNOWN-CLUSTER" ∧
      GetClusterIDFromTags [⟨"Owner", "alice", "i-1"⟩] = "UNKNOWN-CLUSTER" ∧
      GetInfraIDFromTags [⟨"Owner", "alice", "i-1"⟩] = "UNKNOWN-CLUSTER" :=
  no_marker_all_sentinel [⟨"Owner", "alice", "i-1"⟩] (by decide)

/-- C4: for every tag list whose first marker-containing tag has the key
`kubernetes.io/cluster/mycluster-ab12c`, `GetClusterNameFromTags` returns
`mycluster` and `GetInfraIDFromTags` returns `ab12c`. -/
theorem roundtrip_name_and_infraID (tags : List Tag) (t : Tag)
    (hfind : tags.find? (fun u => containsSub u.Key ClusterTagKey) = some t)
    (hkey : t.Key = "kubernetes.io/cluster/mycluster-ab12c") :
    GetClusterNameFromTags tags = "mycluster" ∧
      GetInfraIDFromTags tags = "ab12c" := by
  have h1 := getClusterNameFromTags_eq_parse tags t hfind
  have h2 := getInfraIDFromTags_eq_parse tags t hfind
  rw [hkey] at h1 h2
  exact ⟨h1.trans (by decide), h2.trans (by decide)⟩

/-- C4 witness at the singleton list carrying the example key. -/
theorem roundtrip_name_and_infraID_witness :
    GetClusterNameFromTags
        [⟨"kubernetes.io/cluster/mycluster-ab12c", "owned", "i-1"⟩] =
        "mycluster" ∧
      GetInfraIDFromTags
        [⟨"kubernetes.io/cluster/mycluster-ab12c", "owned", "i-1"⟩] =
        "ab12c" :=
  roundtrip_name_and_infraID
    [⟨"kubernetes.io/cluster/mycluster-ab12c", "owned", "i-1"⟩]
    ⟨"kubernetes.io/cluster/mycluster-ab12c", "owned", "i-1"⟩
    (by decide) rfl

/-- C5: provisioning the account list
`[{AWS, acct-a}, {GCP, acct-b}, {AWS, acct-a}]` leaves the registry with
exactly one entry, keyed `acct-a` and bound to the executor constructed
from the second AWS descriptor (last write wins), and no error. -/
theorem duplicate_account_last_write_wins :
    createExecutors mkAWS
        (Except.ok
          [⟨Provider.AWS, "acct-a", "u1", "k1"⟩,
           ⟨Provider.GCP, "acct-b", "u2", "k2"⟩,
           ⟨Provider.AWS, "acct-a", "u3", "k3"⟩]) [] =
      ([("acct-a", NewAWSExecutor ⟨Provider.AWS, "acct-a", "u3", "k3"⟩)],
        none) := by
  decide

/-- C6: adding a nil executor fails with the `Cannot add a nil Executor`
error and leaves the registry exactly as it was; adding any non-nil
executor succeeds, and its only effect is to insert or replace the single
entry keyed by the executor's `GetAccountName`: that key now maps to the
new executor and every other key maps to what it mapped to before. -/
theorem addExecutor_nil_and_insert (reg : Registry) :
    AddExecutor reg none = (reg, some "Cannot add a nil Executor") ∧
      ∀ e : CloudExecutor,
        AddExecutor reg (some e) =
            (insertExec reg (GetAccountName e) e, none) ∧
          ∀ k, lookupExec (AddExecutor reg (some e)).1 k =
            if k = GetAccountName e then some e else lookupExec reg k := by
  exact ⟨rfl, fun e =>
    ⟨rfl, fun k => lookupExec_insertExec reg (GetAccountName e) e k⟩⟩

/-- C7: provisioning is fail-fast — a failed account-list read returns
that error unchanged with the registry untouched, and when the AWS
constructor yields nil for some account after an error-free prefix `l1`,
the call stops there with the `AddExecutor` error: the result is the
registry built from `l1` alone, independent of the remaining accounts
`l2`. -/
theorem createExecutors_fail_fast
    (newAWS : AccountConfig → Option CloudExecutor) (reg : Registry) :
    (∀ e : String,
        createExecutors newAWS (Except.error e) reg = (reg, some e)) ∧
      ∀ (l1 : List AccountConfig) (a : AccountConfig)
          (l2 : List AccountConfig),
        a.Provider = Provider.AWS → newAWS a = none →
        (createExecutorsLoop newAWS l1 reg).2 = none →
        createExecutors newAWS (Except.ok (l1 ++ a :: l2)) reg =
          ((createExecutorsLoop newAWS l1 reg).1,
            some "Cannot add a nil Executor") := by
  refine ⟨fun e => rfl, fun l1 a l2 hAWS hnil hok => ?_⟩
  show createExecutorsLoop newAWS (l1 ++ a :: l2) reg = _
  rw [createExecutorsLoop_append]
  rcases hl : createExecutorsLoop newAWS l1 reg with ⟨r, err⟩
  rw [hl] at hok
  cases err with
  | some e => exact absurd hok (by simp)
  | none => simp [createExecutorsLoop, hAWS, hnil, AddExecutor]

/-- C7 witness: with a constructor that yields nil, the account list
`[{GCP, g}, {AWS, a}, {AWS, b}]` fails at the first AWS account with the
nil-executor error and an empty registry. -/
theorem createExecutors_fail_fast_witness :
    createExecutors (fun _ => none)
        (Except.ok
          [⟨Provider.GCP, "g", "u", "k"⟩,
           ⟨Provider.AWS, "a", "u", "k"⟩,
           ⟨Provider.AWS, "b", "u", "k"⟩]) [] =
      ([], some "Cannot add a nil Executor") := by
  have h := (createExecutors_fail_fast (fun _ => none) []).2
    [⟨Provider.GCP, "g", "u", "k"⟩] ⟨Provider.AWS, "a", "u", "k"⟩
    [⟨Provider.AWS, "b", "u", "k"⟩] rfl rfl (by decide)
  exact h.trans (by decide)

/-- C8: a GCP or Azure account anywhere in the list neither fails
provisioning nor adds a registry entry: the run over the list with the
account is the run over the list without it, so processing continues with
the subsequent accounts in order. -/
theorem gcp_azure_skipped (newAWS : AccountConfig → Option CloudExecutor)
    (l1 : List AccountConfig) (acc : AccountConfig)
    (l2 : List AccountConfig) (reg : Registry)
    (h : acc.Provider = Provider.GCP ∨ acc.Provider = Provider.Azure) :
    createExecutors newAWS (Except.ok (l1 ++ acc :: l2)) reg =
      createExecutors newAWS (Except.ok (l1 ++ l2)) reg := by
  show createExecutorsLoop newAWS (l1 ++ acc :: l2) reg =
    createExecutorsLoop newAWS (l1 ++ l2) reg
  rw [createExecutorsLoop_append, createExecutorsLoop_append]
  rcases hl : createExecutorsLoop newAWS l1 reg with ⟨r, err⟩
  cases err with
  | some e => rfl
  | none => rcases h with h | h <;> simp [createExecutorsLoop, h]

/-- C8 witness: dropping the GCP account from
`[{AWS, a}, {GCP, g}, {AWS, b}]` does not change the provisioning
outcome. -/
theorem gcp_azure_skipped_witness :
    createExecutors mkAWS
        (Except.ok
          [⟨Provider.AWS, "a", "u1", "k1"⟩,
           ⟨Provider.GCP, "g", "u2", "k2"⟩,
           ⟨Provider.AWS, "b", "u3", "k3"⟩]) [] =
      createExecutors mkAWS
        (Except.ok
          [⟨Provider.AWS, "a", "u1", "k1"⟩,
           ⟨Provider.AWS, "b", "u3", "k3"⟩]) [] :=
  gcp_azure_skipped mkAWS [⟨Provider.AWS, "a", "u1", "k1"⟩]
    ⟨Provider.GCP, "g", "u2", "k2"⟩ [⟨Provider.AWS, "b", "u3", "k3"⟩] []
    (Or.inl rfl)

/-- C9: when the first marker-containing tag key fails the shared
full-match condition of the extraction patterns, `GetInfraIDFromTags`
returns the empty string while `GetClusterNameFromTags` and
`GetClusterIDFromTags` both return the sentinel `UNKNOWN-CLUSTER` — the
behavioral asymmetry of the infra-ID extractor. -/
theorem infraID_asymmetry_on_pattern_miss (tags : List Tag) (t : Tag)
    (hfind : tags.find? (fun u => containsSub u.Key ClusterTagKey) = some t)
    (hmiss : findClusterMatch t.Key.toList = none) :
    GetInfraIDFromTags tags = "" ∧
      GetClusterNameFromTags tags = "UNKNOWN-CLUSTER" ∧
      GetClusterIDFromTags tags = "UNKNOWN-CLUSTER" := by
  have h1 := getInfraIDFromTags_eq_parse tags t hfind
  have h2 := getClusterNameFromTags_eq_parse tags t hfind
  have h3 := getClusterIDFromTags_eq_parse tags t hfind
  unfold parseInfraID at h1
  unfold parseClusterName at h2
  unfold parseClusterID at h3
  rw [hmiss] at h1 h2 h3
  exact ⟨h1, h2, h3⟩

/-- C9 witness at the key `kubernetes.io/cluster/abc`, which contains the
marker but matches neither extraction pattern. -/
theorem infraID_asymmetry_on_pattern_miss_witness :
    GetInfraIDFromTags [⟨"kubernetes.io/cluster/abc", "v", "i-2"⟩] = "" ∧
      GetClusterNameFromTags [⟨"kubernetes.io/cluster/abc", "v", "i-2"⟩] =
        "UNKNOWN-CLUSTER" ∧
      GetClusterIDFromTags [⟨"kubernetes.io/cluster/abc", "v", "i-2"⟩] =
        "UNKNOWN-CLUSTER" :=
  infraID_asymmetry_on_pattern_miss
    [⟨"kubernetes.io/cluster/abc", "v", "i-2"⟩]
    ⟨"kubernetes.io/cluster/abc", "v", "i-2"⟩ (by decide) (by decide)

/-- C10: `LookForTagByKey` returns `none` exactly when no tag in the list
has the searched key, and whenever some tag does match, the returned
value is the zero-valued tag `⟨"", "", ""⟩`, whatever the matching tag
holds. -/
theorem lookForTagByKey_zero_tag (key : String) (tags : List Tag) :
    (LookForTagByKey key tags = none ↔ ∀ t ∈ tags, t.Key ≠ key) ∧
      ((∃ t ∈ tags, t.Key = key) →
        LookForTagByKey key tags = some ⟨"", "", ""⟩) := by
  induction tags with
  | nil => simp [LookForTagByKey]
  | cons u rest ih =>
    by_cases h : u.Key = key
    · simp [LookForTagByKey, h]
    · simp only [LookForTagByKey, beq_iff_eq, if_neg h, List.mem_cons]
      constructor
      · rw [ih.1]
        constructor
        · intro hr
          rintro t (rfl | ht)
          · exact h
          · exact hr t ht
        · intro hall t ht
          exact hall t (Or.inr ht)
      · rintro ⟨t, (rfl | ht), hk⟩
        · exact absurd hk h
        · exact ih.2 ⟨t, ht, hk⟩

/-- C10 witness: a matching `Owner` tag yields the zero-valued tag, not
the matching tag itself. -/
theorem lookForTagByKey_zero_tag_witness :
    LookForTagByKey "Owner" [⟨"Owner", "alice", "i-9"⟩] =
      some ⟨"", "", ""⟩ :=
  (lookForTagByKey_zero_tag "Owner" [⟨"Owner", "alice", "i-9"⟩]).2
    ⟨⟨"Owner", "alice", "i-9"⟩, by simp, rfl⟩

end ClusterIQ
